import Mathlib

/-!
Verification development for the PromptOps backend core: the template
renderer (`_render_template` in `backend/api/run.py`), the bilingual
template normalizer and extractors (`_normalize_compiled_template`,
`_get_compiled_template_text` in `backend/api/prompts.py` and the inline
language selection in `run_prompt`), latest-version selection
(`_get_latest_version`), model resolution, and the `run_prompt` execution
pipeline.

Conventions of the shallow embedding:
* Python strings are Lean `String`s / `List Char`; Python's regex class
  `\s` is modelled by the six ASCII whitespace characters, `[a-zA-Z0-9_]`
  by the corresponding ASCII ranges.
* Python `datetime` timestamps are modelled as `Nat` (only their total
  order matters); `v.created_at or ""` becomes `Option.getD 0`.
* Dynamically typed JSON-ish values (`compiled_template` may be a string,
  a dict, `None`, or anything else) are modelled by the inductive `PyVal`;
  Python truthiness becomes `PyVal.truthy`.
* The external LLM call (`litellm.acompletion`) is the boundary of the
  model: the pipeline result `RunResult.providerCall` records that the
  request reached the provider-forwarding step, with the resolved model,
  the rendered prompt and the stream flag.
* `re.sub(pat, f, s)` scans left to right, replacing each leftmost
  non-overlapping match and copying other characters unchanged; the
  scan is modelled by a fuel-indexed loop (`renderLoop`), where fuel
  `s.length` is enough since every step consumes at least one character.
-/

/-- Python's regex class `\s`, restricted to ASCII. -/
def isPySpace (c : Char) : Bool :=
  c == ' ' || c == '\t' || c == '\n' || c == '\r' || c == '\x0b' || c == '\x0c'

/-- The character class `[a-zA-Z0-9_]` of the placeholder regex. -/
def isWordChar (c : Char) : Bool :=
  (decide ('a' ≤ c) && decide (c ≤ 'z'))
    || (decide ('A' ≤ c) && decide (c ≤ 'Z'))
    || (decide ('0' ≤ c) && decide (c ≤ '9'))
    || c == '_'

theorem word_not_space {c : Char} (h : isWordChar c = true) : isPySpace c = false := by
  cases hc : isPySpace c
  · rfl
  · exfalso
    have h6 : c = ' ' ∨ c = '\t' ∨ c = '\n' ∨ c = '\r' ∨ c = '\x0b' ∨ c = '\x0c' := by
      simpa [isPySpace, or_assoc] using hc
    rcases h6 with rfl | rfl | rfl | rfl | rfl | rfl <;> exact absurd h (by decide)

theorem space_not_word {c : Char} (h : isPySpace c = true) : isWordChar c = false := by
  cases hw : isWordChar c
  · rfl
  · rw [word_not_space hw] at h
    exact absurd h (by simp)

/-- Greedy span: longest prefix of characters satisfying `p`, plus the rest.
This is how the regex engine consumes `\s*` and `[a-zA-Z0-9_]+` here, since
the three character classes involved (`\s`, word, `}`) are disjoint. -/
def spanP (p : Char → Bool) : List Char → List Char × List Char
  | [] => ([], [])
  | c :: cs =>
    if p c then
      let r := spanP p cs
      (c :: r.1, r.2)
    else ([], c :: cs)

theorem spanP_append (p : Char → Bool) : ∀ l : List Char, (spanP p l).1 ++ (spanP p l).2 = l := by
  intro l
  induction l with
  | nil => rfl
  | cons c cs ih =>
    by_cases h : p c <;> simp [spanP, h, ih]

theorem spanP_snd_length (p : Char → Bool) : ∀ l : List Char, (spanP p l).2.length ≤ l.length := by
  intro l
  induction l with
  | nil => simp [spanP]
  | cons c cs ih =>
    by_cases h : p c <;> simp [spanP, h]
    exact Nat.le_succ_of_le ih

theorem spanP_fst_all (p : Char → Bool) : ∀ l : List Char, (spanP p l).1.all p = true := by
  intro l
  induction l with
  | nil => rfl
  | cons c cs ih =>
    by_cases h : p c <;> simp [spanP, h, ih]

theorem spanP_eq_of_all (p : Char → Bool) (w rest : List Char) (hw : w.all p = true)
    (hr : ∀ c cs, rest = c :: cs → p c = false) :
    spanP p (w ++ rest) = (w, rest) := by
  induction w with
  | nil =>
    cases rest with
    | nil => rfl
    | cons c cs => simp [spanP, hr c cs rfl]
  | cons a w ih =>
    simp only [List.all_cons, Bool.and_eq_true] at hw
    simp [spanP, hw.1, ih hw.2]

/-- One attempt of the placeholder regex `\{\{\s*([a-zA-Z0-9_]+)\s*\}\}` at the
head of the input. Returns the captured name, the matched slice and the rest.
Greediness is deterministic here because the whitespace class, the word class
and `}` are pairwise disjoint. -/
def matchPlaceholder (l : List Char) : Option (String × List Char × List Char) :=
  match l with
  | c1 :: c2 :: rest =>
    if c1 == '{' && c2 == '{' then
      let s1 := spanP isPySpace rest
      let s2 := spanP isWordChar s1.2
      if s2.1.isEmpty then none
      else
        let s3 := spanP isPySpace s2.2
        match s3.2 with
        | d1 :: d2 :: r4 =>
          if d1 == '}' && d2 == '}' then
            some (String.mk s2.1, c1 :: c2 :: (s1.1 ++ s2.1 ++ s3.1 ++ [d1, d2]), r4)
          else none
        | _ => none
    else none
  | _ => none

/-- What it means for `raw` to be a placeholder occurrence `{{ name }}`:
two opening braces, insignificant whitespace around a nonempty
`[a-zA-Z0-9_]+` name, two closing braces. -/
def IsPlaceholderRaw (nm : String) (raw : List Char) : Prop :=
  ∃ w1 w2, raw = '{' :: '{' :: (w1 ++ nm.data ++ w2 ++ ['}', '}'])
    ∧ w1.all isPySpace = true ∧ w2.all isPySpace = true
    ∧ nm.data ≠ [] ∧ nm.data.all isWordChar = true

theorem matchPlaceholder_spec {l : List Char} {nm : String} {raw rest : List Char}
    (h : matchPlaceholder l = some (nm, raw, rest)) :
    raw ++ rest = l ∧ rest.length + 4 ≤ l.length ∧ IsPlaceholderRaw nm raw := by
  match l with
  | [] => simp [matchPlaceholder] at h
  | [c1] => simp [matchPlaceholder] at h
  | c1 :: c2 :: r0 =>
    simp only [matchPlaceholder] at h
    set s1 := spanP isPySpace r0 with hs1
    set s2 := spanP isWordChar s1.2 with hs2
    set s3 := spanP isPySpace s2.2 with hs3
    by_cases h12 : (c1 == '{' && c2 == '{') = true
    case neg => simp [h12] at h
    rw [if_pos h12] at h
    by_cases he : s2.1.isEmpty = true
    case pos => simp [he] at h
    rw [if_neg (by simp [he])] at h
    rcases h3 : s3.2 with _ | ⟨d1, t⟩
    · simp only [h3] at h; simp at h
    rcases t with _ | ⟨d2, r4⟩
    · simp only [h3] at h; simp at h
    simp only [h3] at h
    by_cases hdd : (d1 == '}' && d2 == '}') = true
    case neg => simp [hdd] at h
    rw [if_pos hdd] at h
    simp only [Option.some.injEq, Prod.mk.injEq] at h
    obtain ⟨hnm, hraw, hrest⟩ := h
    simp only [Bool.and_eq_true, beq_iff_eq] at h12 hdd
    obtain ⟨hc1, hc2⟩ := h12
    obtain ⟨hd1, hd2⟩ := hdd
    subst hc1 hc2 hd1 hd2 hnm hraw hrest
    have e1 : s1.1 ++ s1.2 = r0 := spanP_append _ _
    have e2 : s2.1 ++ s2.2 = s1.2 := spanP_append _ _
    have e3 : s3.1 ++ s3.2 = s2.2 := spanP_append _ _
    rw [h3] at e3
    refine ⟨?_, ?_, ?_⟩
    · simp only [List.cons_append, List.cons.injEq, true_and, List.append_assoc]
      rw [show ('}' : Char) :: '}' :: r4 = ['}', '}'] ++ r4 from rfl] at e3
      calc s1.1 ++ (s2.1 ++ (s3.1 ++ (['}', '}'] ++ r4)))
          = s1.1 ++ (s2.1 ++ s2.2) := by rw [e3]
        _ = s1.1 ++ s1.2 := by rw [e2]
        _ = r0 := e1
    · have l3 : s3.2.length ≤ s2.2.length := hs3 ▸ spanP_snd_length _ _
      have l2 : s2.2.length ≤ s1.2.length := hs2 ▸ spanP_snd_length _ _
      have l1 : s1.2.length ≤ r0.length := hs1 ▸ spanP_snd_length _ _
      rw [h3] at l3
      simp only [List.length_cons] at l3 ⊢
      omega
    · refine ⟨s1.1, s3.1, ?_, hs1 ▸ spanP_fst_all _ _, hs3 ▸ spanP_fst_all _ _, ?_, ?_⟩
      · simp [String.mk]
      · intro hempty
        rw [show (String.mk s2.1).data = s2.1 from rfl] at hempty
        rw [hempty] at he
        exact he rfl
      · exact hs2 ▸ spanP_fst_all _ _

theorem matchPlaceholder_complete {nm : String} {raw : List Char} (tail : List Char)
    (h : IsPlaceholderRaw nm raw) :
    matchPlaceholder (raw ++ tail) = some (nm, raw, tail) := by
  obtain ⟨w1, w2, hraw, hw1, hw2, hne, hwd⟩ := h
  rcases hn : nm.data with _ | ⟨n0, ntl⟩
  · exact absurd hn hne
  have hword0 : isWordChar n0 = true := by
    rw [hn] at hwd
    simp only [List.all_cons, Bool.and_eq_true] at hwd
    exact hwd.1
  have hne2 : nm.data.isEmpty = false := by rw [hn]; rfl
  subst hraw
  have harr : (w1 ++ nm.data ++ w2 ++ ['}', '}']) ++ tail
      = w1 ++ (nm.data ++ (w2 ++ ('}' :: '}' :: tail))) := by
    simp [List.append_assoc]
  have e1 : spanP isPySpace (w1 ++ (nm.data ++ (w2 ++ ('}' :: '}' :: tail))))
      = (w1, nm.data ++ (w2 ++ ('}' :: '}' :: tail))) := by
    refine spanP_eq_of_all _ _ _ hw1 ?_
    intro c cs heq
    rw [hn] at heq
    simp only [List.cons_append, List.cons.injEq] at heq
    rw [← heq.1]
    exact word_not_space hword0
  have e2 : spanP isWordChar (nm.data ++ (w2 ++ ('}' :: '}' :: tail)))
      = (nm.data, w2 ++ ('}' :: '}' :: tail)) := by
    refine spanP_eq_of_all _ _ _ hwd ?_
    intro c cs heq
    rcases w2 with _ | ⟨a, w2t⟩
    · simp only [List.nil_append, List.cons.injEq] at heq
      rw [← heq.1]
      decide
    · simp only [List.cons_append, List.cons.injEq] at heq
      rw [← heq.1]
      refine space_not_word ?_
      simp only [List.all_cons, Bool.and_eq_true] at hw2
      exact hw2.1
  have e3 : spanP isPySpace (w2 ++ ('}' :: '}' :: tail)) = (w2, '}' :: '}' :: tail) := by
    refine spanP_eq_of_all _ _ _ hw2 ?_
    intro c cs heq
    simp only [List.cons.injEq] at heq
    rw [← heq.1]
    decide
  simp only [List.cons_append, matchPlaceholder, harr, e1, e2, e3, hne2]
  simp

/-- Variable lookup: Python's membership test and subscript on the
(string-valued) variables dict, as first-match association-list lookup.
The Python parameter is named `variables`, a reserved word in Lean, so the
embedding uses `vars`. -/
def lookupVar (vars : List (String × String)) (nm : String) : Option String :=
  (vars.find? (fun p => p.1 == nm)).map (fun p => p.2)

/-- The literal replacement text the renderer emits for an unresolved name. -/
def missingMarker (nm : String) : List Char := ("<MISSING:" ++ nm ++ ">").data

/-- One step of the `re.sub` scan of `_render_template` (run.py lines 24-36):
at each position, if the placeholder regex matches, emit the substitution
decided by `replace_var` (the variable's value, or `<MISSING:name>` while
appending the name to `errors`) and continue after the match; otherwise copy
one character. The `Nat` argument is fuel bounding the number of scan steps;
`l.length` is always enough since every step consumes at least one character. -/
def renderLoop (vars : List (String × String)) : Nat → List Char → List Char × List String
  | 0, l => (l, [])
  | _ + 1, [] => ([], [])
  | fuel + 1, c :: cs =>
    match matchPlaceholder (c :: cs) with
    | some (nm, _, rest) =>
      let t := renderLoop vars fuel rest
      match lookupVar vars nm with
      | some v => (v.data ++ t.1, t.2)
      | none => (missingMarker nm ++ t.1, nm :: t.2)
    | none =>
      let t := renderLoop vars fuel cs
      (c :: t.1, t.2)

/-- `_render_template(template, vars)` from run.py lines 24-36:
returns the rendered string and the `errors` list of unresolved names,
one entry per unresolved placeholder occurrence in scan order. -/
def _render_template (template : String) (vars : List (String × String)) :
    String × List String :=
  let r := renderLoop vars template.data.length template.data
  (String.mk r.1, r.2)

/-- A token of the scan: either a literal character copied unchanged, or a
placeholder occurrence with its captured name and the exact matched slice. -/
inductive Tok where
  | lit (c : Char)
  | ph (nm : String) (raw : List Char)

/-- The decomposition of the input into leftmost non-overlapping regex
matches and literal characters, mirroring the `re.sub` scan. -/
def tokenizeLoop : Nat → List Char → List Tok
  | 0, l => l.map Tok.lit
  | _ + 1, [] => []
  | fuel + 1, c :: cs =>
    match matchPlaceholder (c :: cs) with
    | some (nm, raw, rest) => Tok.ph nm raw :: tokenizeLoop fuel rest
    | none => Tok.lit c :: tokenizeLoop fuel cs

/-- The leftmost-match decomposition of a template into tokens. -/
def tokenize (l : List Char) : List Tok := tokenizeLoop l.length l

/-- The text a token contributes to the rendered output. -/
def tokText (vars : List (String × String)) : Tok → List Char
  | .lit c => [c]
  | .ph nm _ =>
    match lookupVar vars nm with
    | some v => v.data
    | none => missingMarker nm

/-- The entry a token contributes to the `errors` list. -/
def tokMiss (vars : List (String × String)) : Tok → Option String
  | .lit _ => none
  | .ph nm _ =>
    match lookupVar vars nm with
    | some _ => none
    | none => some nm

/-- The slice of the input a token came from. -/
def tokRaw : Tok → List Char
  | .lit c => [c]
  | .ph _ raw => raw

theorem flatten_map_single : ∀ l : List Char, (l.map (fun c => [c])).flatten = l := by
  intro l
  induction l with
  | nil => rfl
  | cons c cs ih => simp [ih]

theorem renderLoop_eq_tokenizeLoop (vars : List (String × String)) :
    ∀ (fuel : Nat) (l : List Char),
    renderLoop vars fuel l
      = (((tokenizeLoop fuel l).map (tokText vars)).flatten,
          (tokenizeLoop fuel l).filterMap (tokMiss vars)) := by
  intro fuel
  induction fuel with
  | zero =>
    intro l
    simp only [renderLoop, tokenizeLoop, List.map_map]
    rw [show (tokText vars) ∘ Tok.lit = fun c => [c] from rfl]
    rw [flatten_map_single]
    simp [List.filterMap_map, tokMiss]
  | succ f ih =>
    intro l
    cases l with
    | nil => simp [renderLoop, tokenizeLoop]
    | cons c cs =>
      simp only [renderLoop, tokenizeLoop]
      cases hm : matchPlaceholder (c :: cs) with
      | none => simp [ih, tokText, tokMiss]
      | some t =>
        obtain ⟨nm, raw, rest⟩ := t
        cases hv : lookupVar vars nm <;>
          simp [ih, tokText, tokMiss, hv, missingMarker]

theorem tokenizeLoop_raw : ∀ (fuel : Nat) (l : List Char),
    ((tokenizeLoop fuel l).map tokRaw).flatten = l := by
  intro fuel
  induction fuel with
  | zero =>
    intro l
    simp only [tokenizeLoop, List.map_map]
    rw [show tokRaw ∘ Tok.lit = fun c => [c] from rfl]
    exact flatten_map_single l
  | succ f ih =>
    intro l
    cases l with
    | nil => simp [tokenizeLoop]
    | cons c cs =>
      simp only [tokenizeLoop]
      cases hm : matchPlaceholder (c :: cs) with
      | none => simp [tokRaw, ih]
      | some t =>
        obtain ⟨nm, raw, rest⟩ := t
        simp only [List.map_cons, List.flatten_cons, tokRaw, ih]
        exact (matchPlaceholder_spec hm).1

theorem tokenizeLoop_ph_shape : ∀ (fuel : Nat) (l : List Char) (nm : String) (raw : List Char),
    Tok.ph nm raw ∈ tokenizeLoop fuel l → IsPlaceholderRaw nm raw := by
  intro fuel
  induction fuel with
  | zero =>
    intro l nm raw hmem
    simp only [tokenizeLoop, List.mem_map] at hmem
    obtain ⟨c, _, hc⟩ := hmem
    exact absurd hc (by intro h; cases h)
  | succ f ih =>
    intro l nm raw hmem
    cases l with
    | nil => simp [tokenizeLoop] at hmem
    | cons c cs =>
      simp only [tokenizeLoop] at hmem
      cases hm : matchPlaceholder (c :: cs) with
      | none =>
        rw [hm] at hmem
        rcases List.mem_cons.mp hmem with h | h
        · cases h
        · exact ih cs nm raw h
      | some t =>
        obtain ⟨nm', raw', rest⟩ := t
        rw [hm] at hmem
        rcases List.mem_cons.mp hmem with h | h
        · cases h
          exact (matchPlaceholder_spec hm).2.2
        · exact ih rest nm raw h

/-- Certifies that a token list is the leftmost non-overlapping match
decomposition of the input, exactly as the `re.sub` scan produces it:
a placeholder token is emitted precisely at positions where the regex
matches, a literal character precisely where it does not. -/
inductive Tokenizes : List Char → List Tok → Prop where
  | nil : Tokenizes [] []
  | ph {l : List Char} {nm : String} {raw rest : List Char} {toks : List Tok}
      (hm : matchPlaceholder l = some (nm, raw, rest))
      (ht : Tokenizes rest toks) : Tokenizes l (Tok.ph nm raw :: toks)
  | lit {c : Char} {cs : List Char} {toks : List Tok}
      (hm : matchPlaceholder (c :: cs) = none)
      (ht : Tokenizes cs toks) : Tokenizes (c :: cs) (Tok.lit c :: toks)

theorem tokenizeLoop_tokenizes :
    ∀ (fuel : Nat) (l : List Char), l.length ≤ fuel → Tokenizes l (tokenizeLoop fuel l) := by
  intro fuel
  induction fuel with
  | zero =>
    intro l hl
    have : l = [] := List.length_eq_zero.mp (Nat.le_zero.mp hl)
    subst this
    exact Tokenizes.nil
  | succ f ih =>
    intro l hl
    cases l with
    | nil => exact Tokenizes.nil
    | cons c cs =>
      simp only [tokenizeLoop]
      cases hm : matchPlaceholder (c :: cs) with
      | none =>
        refine Tokenizes.lit hm (ih cs ?_)
        simp only [List.length_cons] at hl
        omega
      | some t =>
        obtain ⟨nm, raw, rest⟩ := t
        have hlen := (matchPlaceholder_spec hm).2.1
        refine Tokenizes.ph hm (ih rest ?_)
        simp only [List.length_cons] at hlen hl ⊢
        omega

theorem tokenize_tokenizes (l : List Char) : Tokenizes l (tokenize l) :=
  tokenizeLoop_tokenizes l.length l le_rfl

/-- A dynamically typed Python value, covering the shapes the
`compiled_template` column can hold (string / dict / None / anything else,
e.g. numbers or lists). -/
inductive PyVal where
  | vnone
  | vstr (s : String)
  | vint (n : Int)
  | vlist (xs : List PyVal)
  | vdict (entries : List (String × PyVal))

/-- Python truthiness for the shapes modelled. -/
def PyVal.truthy : PyVal → Bool
  | .vnone => false
  | .vstr s => !(s == "")
  | .vint n => !(n == 0)
  | .vlist xs => !xs.isEmpty
  | .vdict es => !es.isEmpty

/-- Python's `a or b` (returns the first truthy operand, else the last). -/
def pyOr (a b : PyVal) : PyVal := if a.truthy then a else b

/-- Python's `d.get(k, default)` on a dict value. -/
def dictGet (entries : List (String × PyVal)) (k : String) (default : PyVal) : PyVal :=
  match entries.find? (fun e => e.1 == k) with
  | some e => e.2
  | none => default

/-- Shape tests for the `isinstance` checks. -/
def PyVal.isNoneV : PyVal → Bool
  | .vnone => true
  | _ => false

def PyVal.isStr : PyVal → Bool
  | .vstr _ => true
  | _ => false

def PyVal.isDict : PyVal → Bool
  | .vdict _ => true
  | _ => false

/-- `_normalize_compiled_template` (prompts.py lines 29-48): canonicalize a
template value to the two-key form, checking `None`, dict, str in the source
order and defaulting anything else to both-empty. -/
def _normalize_compiled_template (template : PyVal) : PyVal :=
  match template with
  | .vnone => .vdict [("zh", .vstr ""), ("en", .vstr "")]
  | .vdict es => .vdict [("zh", dictGet es "zh" (.vstr "")), ("en", dictGet es "en" (.vstr ""))]
  | .vstr s => .vdict [("zh", .vstr s), ("en", .vstr "")]
  | _ => .vdict [("zh", .vstr ""), ("en", .vstr "")]

/-- `_get_compiled_template_text` (prompts.py lines 51-66): extract the text
for one language. Note the dict branch is a plain `template.get(lang, "")`
with no cross-language fallback. -/
def _get_compiled_template_text (template : PyVal) (lang : String) : PyVal :=
  match template with
  | .vnone => .vstr ""
  | .vdict es => dictGet es lang (.vstr "")
  | .vstr s => if lang == "zh" then .vstr s else .vstr ""
  | _ => .vstr ""

/-- String content of a `PyVal` that is a string (used to state fallback
behaviour on canonical, string-valued records). -/
def strOf : PyVal → String
  | .vstr s => s
  | _ => ""

/-- Modelled from the spec: the `extract` operation as the specification
states it — resolve the canonical form via `normalize`, then return the
requested language's text if non-empty, else the other language's text if
non-empty, else the empty string. Used as the comparison point for the
extraction code. -/
def specExtract (raw : PyVal) (lang : String) : String :=
  match _normalize_compiled_template raw with
  | .vdict es =>
    let requested := strOf (dictGet es lang (.vstr ""))
    let other := strOf (dictGet es (if lang == "zh" then "en" else "zh") (.vstr ""))
    if requested ≠ "" then requested else if other ≠ "" then other else ""
  | _ => ""

/-- The inline template selection of `run_prompt` (run.py lines 132-139):
on a dict, `get(lang,"") or get(other,"") or get("zh","") or get("en","")`;
otherwise `version.compiled_template or ""`. -/
def selectTemplate (compiled : PyVal) (lang : String) : PyVal :=
  match compiled with
  | .vdict es =>
    pyOr (dictGet es lang (.vstr ""))
      (pyOr (dictGet es (if lang == "zh" then "en" else "zh") (.vstr ""))
        (pyOr (dictGet es "zh" (.vstr "")) (dictGet es "en" (.vstr ""))))
  | t => pyOr t (.vstr "")

/-- One row of `prompt_versions` as the execution path reads it. Timestamps
are naturals (only their order matters); a `None` timestamp is given sort
key 0 like the source's `v.created_at or ""` default. `config_json` is
`none` for SQL NULL, otherwise a string-valued dict. -/
structure PromptVersion where
  version_num : String
  created_at : Option Nat
  compiled_template : PyVal
  config_json : Option (List (String × String))

/-- One row of `prompts` with its versions relation. -/
structure Prompt where
  slug : String
  versions : List PromptVersion

/-- The sort key `v.created_at or ""` of `_get_latest_version`. -/
def versionKey (v : PromptVersion) : Nat := v.created_at.getD 0

/-- The descending comparison `sorted(..., key=..., reverse=True)` sorts by:
`a` may come before `b` iff `a`'s key is at least `b`'s. Stable sorting with
this relation is exactly Python's stable descending sort. -/
def versionGe (a b : PromptVersion) : Prop := versionKey b ≤ versionKey a

instance : DecidableRel versionGe := fun _ _ => Nat.decLe _ _

instance : IsTotal PromptVersion versionGe :=
  ⟨fun a b => Nat.le_total (versionKey b) (versionKey a)⟩

instance : IsTrans PromptVersion versionGe :=
  ⟨fun _ _ _ hab hbc => Nat.le_trans hbc hab⟩

/-- `_get_latest_version` (prompts.py lines 110-116): `None` on an empty
version list, else the head of the stable descending sort by creation
timestamp (`sorted(prompt.versions, key=..., reverse=True)[0]`). -/
def _get_latest_version (prompt : Prompt) : Option PromptVersion :=
  if prompt.versions.isEmpty then none
  else (List.insertionSort versionGe prompt.versions).head?

theorem getLatest_none_iff (prompt : Prompt) :
    _get_latest_version prompt = none ↔ prompt.versions = [] := by
  unfold _get_latest_version
  by_cases h : prompt.versions.isEmpty
  · simp [h, List.isEmpty_iff.mp h]
  · simp only [if_neg h]
    have hp := List.perm_insertionSort versionGe prompt.versions
    constructor
    · intro hh
      cases hs : List.insertionSort versionGe prompt.versions with
      | nil =>
        rw [hs] at hp
        exact List.perm_nil.mp hp.symm
      | cons a as =>
        rw [hs] at hh
        simp at hh
    · intro hh
      exact absurd (List.isEmpty_iff.mpr hh) h

theorem getLatest_mem_and_max (prompt : Prompt) (v : PromptVersion)
    (h : _get_latest_version prompt = some v) :
    v ∈ prompt.versions ∧ ∀ w ∈ prompt.versions, versionKey w ≤ versionKey v := by
  unfold _get_latest_version at h
  by_cases he : prompt.versions.isEmpty
  · simp [he] at h
  rw [if_neg he] at h
  have hp := List.perm_insertionSort versionGe prompt.versions
  have hsorted := List.sorted_insertionSort versionGe prompt.versions
  cases hs : List.insertionSort versionGe prompt.versions with
  | nil => rw [hs] at h; simp at h
  | cons a as =>
    rw [hs] at h
    simp only [List.head?_cons, Option.some.injEq] at h
    subst h
    rw [hs] at hp hsorted
    constructor
    · exact hp.mem_iff.mp (List.mem_cons_self _ _)
    · intro w hw
      have hw2 : w ∈ a :: as := hp.mem_iff.mpr hw
      rcases List.mem_cons.mp hw2 with rfl | hw3
      · exact Nat.le_refl _
      · exact List.rel_of_sorted_cons hsorted w hw3

/-- Truthiness of an optional string (Python: absent key or `None` and the
empty string are falsy). -/
def truthyOptStr : Option String → Bool
  | none => false
  | some s => !(s == "")

/-- `cfg.get(k)` on a string-valued dict: `None` when the key is absent. -/
def strKeyGet (cfg : List (String × String)) (k : String) : Option String :=
  (cfg.find? (fun e => e.1 == k)).map (fun e => e.2)

/-- The model resolution of run.py line 142:
`payload.get("model") or (version.config_json.get("model_name") if
version.config_json else "gpt-3.5-turbo")`. Note that when `config_json`
is truthy (non-empty) but has no `model_name` key, the whole expression is
`None` — the hard-coded fallback is only reached when `config_json` is
falsy (NULL or empty). -/
def resolveModel (payloadModel : Option String)
    (configJson : Option (List (String × String))) : Option String :=
  if truthyOptStr payloadModel then payloadModel
  else
    match configJson with
    | some cfg => if cfg.isEmpty then some "gpt-3.5-turbo" else strKeyGet cfg "model_name"
    | none => some "gpt-3.5-turbo"

/-- The request body of `POST /api/v1/run/{prompt_slug}`, with the fields
`run_prompt` reads. `lang` defaults to `"zh"`, `variables` to the empty
dict, `stream` to `False`. -/
structure RunPayload where
  lang : Option String
  variables? : Option (List (String × String))
  api_key : Option String
  model : Option String
  stream : Bool

/-- The JSON body `run_prompt` returns in the non-provider cases (missing
variables, and mock mode). `none` fields model absent keys / JSON null. -/
structure RunResponse where
  result : String
  template : String
  errors : List String
  llm_response : Option String
  error : Option String
  note : Option String

/-- Outcome of one `run_prompt` request. `providerCall` marks that the
request reached the LLM forwarding step (the `litellm.acompletion` call)
with the given resolved model, rendered prompt and stream flag; what the
provider then returns is outside the model. `typeErrorCrash` marks the
dynamic-typing failure path where the selected template value is not a
string (Python's `re.sub` would raise `TypeError`). -/
inductive RunResult where
  | httpError (status : Nat) (detail : String)
  | ok (resp : RunResponse)
  | providerCall (model : Option String) (renderedPrompt : String) (stream : Bool)
  | typeErrorCrash

/-- `run_prompt` (run.py lines 105-168, up to the provider boundary):
resolve the prompt by slug (404 if absent), resolve the latest version
(404 if none), select the template text for the requested language,
render; missing variables short-circuit into a 200-shaped payload with an
`error` summary; without litellm or an API key return the mock payload;
otherwise forward to the provider with the resolved model. -/
def run_prompt (db : List Prompt) (prompt_slug : String) (payload : RunPayload)
    (litellmAvailable : Bool) : RunResult :=
  match db.find? (fun p => p.slug == prompt_slug) with
  | none => .httpError 404 "Prompt (slug) 不存在"
  | some prompt =>
    match _get_latest_version prompt with
    | none => .httpError 404 "Prompt 无可用版本"
    | some version =>
      let lang := payload.lang.getD "zh"
      match selectTemplate version.compiled_template lang with
      | .vstr template =>
        let vars := payload.variables?.getD []
        let modelUsed := resolveModel payload.model version.config_json
        let rendered := _render_template template vars
        if rendered.2.isEmpty then
          if !litellmAvailable || !truthyOptStr payload.api_key then
            .ok { result := rendered.1, template := template, errors := [],
                  llm_response := some "[Mock 模式] 请提供 API Key 以调用真实 LLM",
                  error := none,
                  note := some "安装 litellm 并提供 api_key 参数以启用真实 LLM 调用" }
          else
            .providerCall modelUsed rendered.1 payload.stream
        else
          .ok { result := rendered.1, template := template, errors := rendered.2,
                llm_response := none,
                error := some ("缺失变量: " ++ String.intercalate ", " rendered.2),
                note := none }
      | _ => .typeErrorCrash

/-- Sample canonical template record used by concrete witnesses: chinese
text `Hello {{ name }}`, empty english text. -/
def greetTemplate : PyVal :=
  .vdict [("zh", .vstr "Hello \x7b\x7b name \x7d\x7d"), ("en", .vstr "")]

/-- Sample version: its config has no `model_name` default. -/
def greetVersion : PromptVersion :=
  { version_num := "1.0.0", created_at := some 1,
    compiled_template := greetTemplate,
    config_json := some [("temperature", "0.7")] }

def greetPrompt : Prompt := { slug := "greet", versions := [greetVersion] }

def sampleDb : List Prompt := [greetPrompt]

/-- Request with an API key but an empty variables dict. -/
def payloadNoVars : RunPayload :=
  { lang := none, variables? := some [], api_key := some "sk-1",
    model := none, stream := false }

/-- Request with the needed variable but no API key. -/
def payloadVars : RunPayload :=
  { lang := none, variables? := some [("name", "Ada")], api_key := none,
    model := none, stream := false }

/-- Request with the needed variable and an API key, but no model override. -/
def payloadVarsKey : RunPayload :=
  { lang := none, variables? := some [("name", "Ada")], api_key := some "sk-1",
    model := none, stream := false }

/-- Claim C1: `_render_template` decomposes the template into the leftmost
non-overlapping placeholder matches and literal text (`Tokenizes` and the
raw-reconstruction equation), replaces each placeholder occurrence whose
name is a key of the variables mapping by its value, replaces each other
occurrence by `<MISSING:name>` recording the name in the missing list, and
returns all other text unchanged; every emitted placeholder token is a
well-formed `{{ name }}` occurrence, and conversely the matcher accepts
every well-formed occurrence. -/
theorem C1_render_replaces_placeholders (template : String) (vars : List (String × String)) :
    (_render_template template vars).1
        = String.mk (((tokenize template.data).map (tokText vars)).flatten)
    ∧ (_render_template template vars).2
        = (tokenize template.data).filterMap (tokMiss vars)
    ∧ ((tokenize template.data).map tokRaw).flatten = template.data
    ∧ Tokenizes template.data (tokenize template.data)
    ∧ (∀ nm raw, Tok.ph nm raw ∈ tokenize template.data → IsPlaceholderRaw nm raw)
    ∧ (∀ nm raw tail, IsPlaceholderRaw nm raw →
        matchPlaceholder (raw ++ tail) = some (nm, raw, tail)) := by
  have h := renderLoop_eq_tokenizeLoop vars template.data.length template.data
  refine ⟨?_, ?_, tokenizeLoop_raw _ _, tokenize_tokenizes _,
    fun nm raw hm => tokenizeLoop_ph_shape _ _ nm raw hm,
    fun nm raw tail hm => matchPlaceholder_complete tail hm⟩
  · unfold _render_template tokenize
    rw [h]
  · unfold _render_template tokenize
    rw [h]

/-- Witness for C1 at a concrete template and variable mapping. -/
theorem C1_witness :
    _render_template "Hi \x7b\x7b name \x7d\x7d!" [("name", "Ada")] = ("Hi Ada!", [])
    ∧ (_render_template "Hi \x7b\x7b name \x7d\x7d!" [("name", "Ada")]).2
        = (tokenize ("Hi \x7b\x7b name \x7d\x7d!".data)).filterMap (tokMiss [("name", "Ada")]) :=
  ⟨rfl, (C1_render_replaces_placeholders "Hi \x7b\x7b name \x7d\x7d!" [("name", "Ada")]).2.1⟩

/-- Claim C2: `_get_latest_version` returns `none` exactly on an empty
version list, and otherwise a stored version whose creation timestamp is
maximal among the prompt's versions, for every storage order. -/
theorem C2_latest_version_selection (prompt : Prompt) :
    (_get_latest_version prompt = none ↔ prompt.versions = [])
    ∧ ∀ v, _get_latest_version prompt = some v →
        v ∈ prompt.versions ∧ ∀ w ∈ prompt.versions, versionKey w ≤ versionKey v :=
  ⟨getLatest_none_iff prompt, fun v h => getLatest_mem_and_max prompt v h⟩

/-- A bare version created at time `t`, for the C2 witness. -/
def vAt (t : Nat) : PromptVersion :=
  { version_num := "", created_at := some t, compiled_template := .vnone,
    config_json := none }

/-- Witness for C2: three versions created at 1 < 2 < 3 stored out of
order; the one created at 3 is selected and is maximal. -/
theorem C2_witness :
    _get_latest_version { slug := "s", versions := [vAt 2, vAt 3, vAt 1] } = some (vAt 3)
    ∧ (vAt 3 ∈ ({ slug := "s", versions := [vAt 2, vAt 3, vAt 1] } : Prompt).versions
        ∧ ∀ w ∈ ({ slug := "s", versions := [vAt 2, vAt 3, vAt 1] } : Prompt).versions,
            versionKey w ≤ versionKey (vAt 3)) :=
  ⟨rfl, (C2_latest_version_selection _).2 (vAt 3) rfl⟩

/-- Claim C8: normalization is idempotent and its result always carries
exactly the two language keys. -/
theorem C8_normalize_idempotent (x : PyVal) :
    _normalize_compiled_template (_normalize_compiled_template x)
        = _normalize_compiled_template x
    ∧ ∃ a b, _normalize_compiled_template x = .vdict [("zh", a), ("en", b)] := by
  cases x <;> exact ⟨rfl, _, _, rfl⟩

/-- Witness for C8 at a legacy (plain string) stored form. -/
theorem C8_witness :
    _normalize_compiled_template (_normalize_compiled_template (.vstr "hi"))
        = _normalize_compiled_template (.vstr "hi")
    ∧ ∃ a b, _normalize_compiled_template (.vstr "hi") = .vdict [("zh", a), ("en", b)] :=
  C8_normalize_idempotent (.vstr "hi")

/-- Claim C10: on any input that is neither `None` nor a string nor a dict
(e.g. a number or a list), normalization returns the both-empty record, and
every normalization output is a dict with exactly the two language keys. -/
theorem C10_normalize_total (x : PyVal)
    (h1 : x.isNoneV = false) (h2 : x.isStr = false) (h3 : x.isDict = false) :
    _normalize_compiled_template x = .vdict [("zh", .vstr ""), ("en", .vstr "")]
    ∧ ∀ y : PyVal, ∃ a b, _normalize_compiled_template y = .vdict [("zh", a), ("en", b)] := by
  constructor
  · cases x
    case vnone => simp [PyVal.isNoneV] at h1
    case vstr s => simp [PyVal.isStr] at h2
    case vdict es => simp [PyVal.isDict] at h3
    case vint n => rfl
    case vlist xs => rfl
  · intro y
    cases y <;> exact ⟨_, _, rfl⟩

/-- Witness for C10 at the number 3. -/
theorem C10_witness :
    (PyVal.isNoneV (.vint 3) = false ∧ PyVal.isStr (.vint 3) = false
      ∧ PyVal.isDict (.vint 3) = false)
    ∧ _normalize_compiled_template (.vint 3) = .vdict [("zh", .vstr ""), ("en", .vstr "")] :=
  ⟨⟨rfl, rfl, rfl⟩, (C10_normalize_total (.vint 3) rfl rfl rfl).1⟩

/-- Counterexample to claim C3 as stated: the extractor
`_get_compiled_template_text` (prompts.py lines 51-66) performs no
cross-language fallback — on the record with empty chinese text and
non-empty english text `"x"`, requesting `"zh"` yields `""`, while the
extract operation described by the specification yields `"x"`. -/
theorem C3_counterexample :
    _get_compiled_template_text (.vdict [("zh", .vstr ""), ("en", .vstr "x")]) "zh"
        = .vstr ""
    ∧ specExtract (.vdict [("zh", .vstr ""), ("en", .vstr "x")]) "zh" = "x" :=
  ⟨rfl, rfl⟩

/-- Claim C3 as amended: the execution path's inline template selection
(run.py lines 132-139) does satisfy the claimed fallback contract — on a
canonical string-valued record and a requested language `zh` or `en` it
returns the requested language's text if non-empty, else the other
language's text if non-empty, else the empty string (it coincides with the
specification's extract); the helper `_get_compiled_template_text`, by
contrast, returns exactly the requested language's stored text with no
fallback. -/
theorem C3_extract_fallback (z e lang : String) (hl : lang = "zh" ∨ lang = "en") :
    selectTemplate (.vdict [("zh", .vstr z), ("en", .vstr e)]) lang
        = .vstr (specExtract (.vdict [("zh", .vstr z), ("en", .vstr e)]) lang)
    ∧ _get_compiled_template_text (.vdict [("zh", .vstr z), ("en", .vstr e)]) lang
        = .vstr (if lang = "zh" then z else e) := by
  rcases hl with rfl | rfl
  · constructor
    · by_cases hz : z = "" <;> by_cases he : e = "" <;>
        simp [selectTemplate, specExtract, dictGet, pyOr, PyVal.truthy, strOf,
          _normalize_compiled_template, hz, he]
    · simp [_get_compiled_template_text, dictGet]
  · constructor
    · by_cases hz : z = "" <;> by_cases he : e = "" <;>
        simp [selectTemplate, specExtract, dictGet, pyOr, PyVal.truthy, strOf,
          _normalize_compiled_template, hz, he]
    · simp [_get_compiled_template_text, dictGet]

/-- Witness for the amended C3 on the counterexample record: the execution
path does fall back to the non-empty english text. -/
theorem C3_witness :
    (("zh" : String) = "zh" ∨ ("zh" : String) = "en")
    ∧ selectTemplate (.vdict [("zh", .vstr ""), ("en", .vstr "x")]) "zh"
        = .vstr (specExtract (.vdict [("zh", .vstr ""), ("en", .vstr "x")]) "zh") :=
  ⟨Or.inl rfl, (C3_extract_fallback "" "x" "zh" (Or.inl rfl)).1⟩

/-- Counterexample to claim C9 as stated: rendering `{{x}} {{x}}` with an
empty variable mapping records the unresolved name once per occurrence, so
the missing list is `["x", "x"]` — not a list of distinct names. -/
theorem C9_counterexample :
    (_render_template "\x7b\x7bx\x7d\x7d \x7b\x7bx\x7d\x7d" []).2 = ["x", "x"]
    ∧ ¬ ((_render_template "\x7b\x7bx\x7d\x7d \x7b\x7bx\x7d\x7d" []).2.Nodup) := by
  constructor
  · rfl
  · intro h
    rw [show (_render_template "\x7b\x7bx\x7d\x7d \x7b\x7bx\x7d\x7d" []).2 = ["x", "x"] from rfl] at h
    simp at h

theorem count_filterMap_tokMiss (vars : List (String × String)) (nm : String)
    (h : lookupVar vars nm = none) :
    ∀ toks : List Tok, (toks.filterMap (tokMiss vars)).count nm
      = toks.countP (fun t => match t with
          | Tok.ph n _ => n == nm
          | _ => false) := by
  intro toks
  induction toks with
  | nil => rfl
  | cons t ts ih =>
    cases t with
    | lit c => simpa [tokMiss, List.countP_cons] using ih
    | ph n raw =>
      by_cases hn : n = nm
      · subst hn
        have ht : tokMiss vars (Tok.ph n raw) = some n := by simp [tokMiss, h]
        simp [List.filterMap_cons, ht, List.count_cons, List.countP_cons, ih]
      · cases hv : lookupVar vars n with
        | some v =>
          have ht : tokMiss vars (Tok.ph n raw) = none := by simp [tokMiss, hv]
          simp [List.filterMap_cons, ht, List.countP_cons, hn, ih]
        | none =>
          have ht : tokMiss vars (Tok.ph n raw) = some n := by simp [tokMiss, hv]
          simp [List.filterMap_cons, ht, List.count_cons, List.countP_cons, ih, hn]

/-- Claim C9 as amended: the missing list records one entry per unresolved
placeholder occurrence, in scan order (the `filterMap` over the leftmost
match decomposition); in particular the number of occurrences of an
unresolved name in the missing list equals the number of placeholder
tokens carrying that name, so duplicates are retained rather than
deduplicated. -/
theorem C9_missing_per_occurrence (template : String) (vars : List (String × String))
    (nm : String) (h : lookupVar vars nm = none) :
    (_render_template template vars).2
        = (tokenize template.data).filterMap (tokMiss vars)
    ∧ (_render_template template vars).2.count nm
        = (tokenize template.data).countP (fun t => match t with
            | Tok.ph n _ => n == nm
            | _ => false) := by
  have h2 := renderLoop_eq_tokenizeLoop vars template.data.length template.data
  have hfm : (_render_template template vars).2
      = (tokenize template.data).filterMap (tokMiss vars) := by
    unfold _render_template tokenize
    rw [h2]
  exact ⟨hfm, by rw [hfm]; exact count_filterMap_tokMiss vars nm h (tokenize template.data)⟩

/-- Witness for the amended C9 on the duplicated-placeholder template. -/
theorem C9_witness :
    lookupVar [] "x" = none
    ∧ (_render_template "\x7b\x7bx\x7d\x7d \x7b\x7bx\x7d\x7d" []).2.count "x"
        = (tokenize ("\x7b\x7bx\x7d\x7d \x7b\x7bx\x7d\x7d".data)).countP (fun t => match t with
            | Tok.ph n _ => n == "x"
            | _ => false) :=
  ⟨rfl, (C9_missing_per_occurrence "\x7b\x7bx\x7d\x7d \x7b\x7bx\x7d\x7d" [] "x" rfl).2⟩

/-- Claim C4: whenever rendering leaves a non-empty missing-variable list,
`run_prompt` returns the 200-shaped payload carrying the partially rendered
text, the missing names, a null `llm_response` and the error summary
string, and the request never reaches the provider-forwarding step. -/
theorem C4_missing_vars_short_circuit
    (db : List Prompt) (slug : String) (payload : RunPayload) (la : Bool)
    (prompt : Prompt) (version : PromptVersion) (template : String)
    (hp : db.find? (fun p => p.slug == slug) = some prompt)
    (hv : _get_latest_version prompt = some version)
    (ht : selectTemplate version.compiled_template (payload.lang.getD "zh") = .vstr template)
    (hm : (_render_template template (payload.variables?.getD [])).2 ≠ []) :
    run_prompt db slug payload la = RunResult.ok {
        result := (_render_template template (payload.variables?.getD [])).1,
        template := template,
        errors := (_render_template template (payload.variables?.getD [])).2,
        llm_response := none,
        error := some ("缺失变量: " ++ String.intercalate ", "
          (_render_template template (payload.variables?.getD [])).2),
        note := none }
    ∧ ∀ m r s, run_prompt db slug payload la ≠ RunResult.providerCall m r s := by
  have hm2 : (_render_template template (payload.variables?.getD [])).2.isEmpty = false := by
    cases hre : (_render_template template (payload.variables?.getD [])).2 with
    | nil => exact absurd hre hm
    | cons a as => rfl
  have hrun : run_prompt db slug payload la = RunResult.ok {
      result := (_render_template template (payload.variables?.getD [])).1,
      template := template,
      errors := (_render_template template (payload.variables?.getD [])).2,
      llm_response := none,
      error := some ("缺失变量: " ++ String.intercalate ", "
        (_render_template template (payload.variables?.getD [])).2),
      note := none } := by
    simp only [run_prompt, hp, hv, ht, hm2]
    simp
  exact ⟨hrun, fun m r s hc => by rw [hrun] at hc; exact RunResult.noConfusion hc⟩

/-- Witness for C4: executing the sample prompt with an empty variables
dict short-circuits with the missing name reported and no provider call. -/
theorem C4_witness :
    run_prompt sampleDb "greet" payloadNoVars true
      = RunResult.ok {
          result := "Hello <MISSING:name>",
          template := "Hello \x7b\x7b name \x7d\x7d",
          errors := ["name"],
          llm_response := none,
          error := some "缺失变量: name",
          note := none } :=
  (C4_missing_vars_short_circuit sampleDb "greet" payloadNoVars true greetPrompt
    greetVersion "Hello \x7b\x7b name \x7d\x7d" rfl rfl rfl (by decide)).1

/-- Claim C6: with no missing variables, if litellm is unavailable or no
API key is supplied, `run_prompt` returns the dry-run (mock) payload with
the rendered text, an empty missing list and the explanatory placeholder
string, and the request never reaches the provider-forwarding step. -/
theorem C6_dry_run_mock
    (db : List Prompt) (slug : String) (payload : RunPayload) (la : Bool)
    (prompt : Prompt) (version : PromptVersion) (template : String)
    (hp : db.find? (fun p => p.slug == slug) = some prompt)
    (hv : _get_latest_version prompt = some version)
    (ht : selectTemplate version.compiled_template (payload.lang.getD "zh") = .vstr template)
    (hm : (_render_template template (payload.variables?.getD [])).2 = [])
    (hmock : la = false ∨ truthyOptStr payload.api_key = false) :
    run_prompt db slug payload la = RunResult.ok {
        result := (_render_template template (payload.variables?.getD [])).1,
        template := template,
        errors := [],
        llm_response := some "[Mock 模式] 请提供 API Key 以调用真实 LLM",
        error := none,
        note := some "安装 litellm 并提供 api_key 参数以启用真实 LLM 调用" }
    ∧ ∀ m r s, run_prompt db slug payload la ≠ RunResult.providerCall m r s := by
  have hm2 : (_render_template template (payload.variables?.getD [])).2.isEmpty = true := by
    rw [hm]; rfl
  have hcond : (!la || !truthyOptStr payload.api_key) = true := by
    rcases hmock with rfl | hk
    · rfl
    · rw [hk]; simp
  have hrun : run_prompt db slug payload la = RunResult.ok {
      result := (_render_template template (payload.variables?.getD [])).1,
      template := template,
      errors := [],
      llm_response := some "[Mock 模式] 请提供 API Key 以调用真实 LLM",
      error := none,
      note := some "安装 litellm 并提供 api_key 参数以启用真实 LLM 调用" } := by
    simp only [run_prompt, hp, hv, ht, hm2, hcond]
    simp
  exact ⟨hrun, fun m r s hc => by rw [hrun] at hc; exact RunResult.noConfusion hc⟩

/-- Witness for C6: the sample prompt with its variable supplied but no
API key yields the mock (dry-run) payload. -/
theorem C6_witness :
    run_prompt sampleDb "greet" payloadVars true
      = RunResult.ok {
          result := "Hello Ada",
          template := "Hello \x7b\x7b name \x7d\x7d",
          errors := [],
          llm_response := some "[Mock 模式] 请提供 API Key 以调用真实 LLM",
          error := none,
          note := some "安装 litellm 并提供 api_key 参数以启用真实 LLM 调用" } :=
  (C6_dry_run_mock sampleDb "greet" payloadVars true greetPrompt greetVersion
    "Hello \x7b\x7b name \x7d\x7d" rfl rfl rfl rfl (Or.inr rfl)).1

/-- Counterexample to claim C5 as stated: with no model in the request and
a non-empty version config without a `model_name` key, the model forwarded
to the provider is `None` — the hard-coded fallback `gpt-3.5-turbo` is not
used even though neither the request nor the config supplies a model
(run.py line 142 only reaches the fallback when `config_json` is falsy). -/
theorem C5_counterexample :
    run_prompt sampleDb "greet" payloadVarsKey true
        = RunResult.providerCall none "Hello Ada" false
    ∧ payloadVarsKey.model = none
    ∧ greetVersion.config_json = some [("temperature", "0.7")]
    ∧ strKeyGet [("temperature", "0.7")] "model_name" = none
    ∧ (none : Option String) ≠ some "gpt-3.5-turbo" :=
  ⟨rfl, rfl, rfl, rfl, by simp⟩

/-- Claim C5 as amended: a request that reaches the provider-forwarding
step uses the model computed by `resolveModel` (run.py line 142): the
explicit request model if truthy; else, if the version's config mapping is
NULL or empty, the hard-coded fallback `gpt-3.5-turbo`; else the config's
`model_name` value — which is `None` when that key is absent, so the hard
fallback is not reached in that case. -/
theorem C5_model_resolution
    (db : List Prompt) (slug : String) (payload : RunPayload) (la : Bool)
    (prompt : Prompt) (version : PromptVersion) (template : String)
    (hp : db.find? (fun p => p.slug == slug) = some prompt)
    (hv : _get_latest_version prompt = some version)
    (ht : selectTemplate version.compiled_template (payload.lang.getD "zh") = .vstr template)
    (hm : (_render_template template (payload.variables?.getD [])).2 = [])
    (hla : la = true)
    (hkey : truthyOptStr payload.api_key = true) :
    run_prompt db slug payload la
        = RunResult.providerCall (resolveModel payload.model version.config_json)
            (_render_template template (payload.variables?.getD [])).1 payload.stream
    ∧ (truthyOptStr payload.model = true →
        resolveModel payload.model version.config_json = payload.model)
    ∧ (truthyOptStr payload.model = false →
        (version.config_json = none ∨ version.config_json = some []) →
        resolveModel payload.model version.config_json = some "gpt-3.5-turbo")
    ∧ (truthyOptStr payload.model = false →
        ∀ cfg, version.config_json = some cfg → cfg ≠ [] →
          resolveModel payload.model version.config_json = strKeyGet cfg "model_name") := by
  subst hla
  have hm2 : (_render_template template (payload.variables?.getD [])).2.isEmpty = true := by
    rw [hm]; rfl
  have hcond : (!true || !truthyOptStr payload.api_key) = false := by
    rw [hkey]; rfl
  refine ⟨?_, ?_, ?_, ?_⟩
  · simp only [run_prompt, hp, hv, ht, hm2, hcond]
    simp
  · intro hmod
    simp [resolveModel, hmod]
  · intro hmod hcfg
    rcases hcfg with hc | hc <;> simp [resolveModel, hmod, hc]
  · intro hmod cfg hc hne
    have hie : cfg.isEmpty = false := by
      cases cfg with
      | nil => exact absurd rfl hne
      | cons a as => rfl
    simp [resolveModel, hmod, hc, hie]

/-- Witness for the amended C5: the sample request reaches the provider
with the model resolved from the request and the version config. -/
theorem C5_witness :
    run_prompt sampleDb "greet" payloadVarsKey true
        = RunResult.providerCall
            (resolveModel payloadVarsKey.model greetVersion.config_json)
            (_render_template "Hello \x7b\x7b name \x7d\x7d"
              (payloadVarsKey.variables?.getD [])).1 payloadVarsKey.stream :=
  (C5_model_resolution sampleDb "greet" payloadVarsKey true greetPrompt greetVersion
    "Hello \x7b\x7b name \x7d\x7d" rfl rfl rfl rfl rfl rfl).1

/-- Claim C7: `run_prompt` fails with the client-visible 404 condition
exactly when the slug matches no prompt or the matched prompt has zero
versions; the 404 is produced before any rendering or provider
interaction. -/
theorem C7_not_found_iff
    (db : List Prompt) (slug : String) (payload : RunPayload) (la : Bool) :
    (∃ d, run_prompt db slug payload la = RunResult.httpError 404 d)
    ↔ (db.find? (fun p => p.slug == slug) = none
        ∨ ∃ prompt, db.find? (fun p => p.slug == slug) = some prompt
            ∧ prompt.versions = []) := by
  cases hf : db.find? (fun p => p.slug == slug) with
  | none =>
    constructor
    · intro _
      exact Or.inl rfl
    · intro _
      refine ⟨"Prompt (slug) 不存在", ?_⟩
      simp only [run_prompt, hf]
  | some prompt =>
    cases hl : _get_latest_version prompt with
    | none =>
      have hemp : prompt.versions = [] := (getLatest_none_iff prompt).mp hl
      constructor
      · intro _
        exact Or.inr ⟨prompt, rfl, hemp⟩
      · intro _
        refine ⟨"Prompt 无可用版本", ?_⟩
        simp only [run_prompt, hf, hl]
    | some version =>
      have hne : prompt.versions ≠ [] := by
        intro hh
        rw [(getLatest_none_iff prompt).mpr hh] at hl
        exact Option.noConfusion hl
      constructor
      · rintro ⟨d, hd⟩
        exfalso
        simp only [run_prompt, hf, hl] at hd
        rcases hsel : selectTemplate version.compiled_template (payload.lang.getD "zh") with
          _ | s | n | xs | es <;> simp only [hsel] at hd
        case vstr =>
          by_cases hie : (_render_template s (payload.variables?.getD [])).2.isEmpty = true
          · rw [if_pos hie] at hd
            by_cases hc : (!la || !truthyOptStr payload.api_key) = true
            · rw [if_pos hc] at hd
              exact RunResult.noConfusion hd
            · rw [if_neg hc] at hd
              exact RunResult.noConfusion hd
          · rw [if_neg hie] at hd
            exact RunResult.noConfusion hd
        all_goals exact RunResult.noConfusion hd
      · rintro (h1 | ⟨p2, hp2, hemp2⟩)
        · exact Option.noConfusion h1
        · injection hp2 with hpe
          subst hpe
          exact absurd hemp2 hne

/-- Witness for C7: an unknown slug yields the 404 condition. -/
theorem C7_witness :
    ∃ d, run_prompt sampleDb "nope" payloadVars true = RunResult.httpError 404 d :=
  (C7_not_found_iff sampleDb "nope" payloadVars true).mpr (Or.inl rfl)
